import Mathlib

/-!
Verification of the Mafia game-state engine (`game_logic.py`, data model in
`models.py`).  The Python classes are embedded shallowly: the mutable
`MafiaGame` object becomes a record threaded explicitly, Python dicts become
association lists in insertion order, `random.shuffle` / `random.choice`
become injected functions, and each mutating method returns the new state
together with the value the Python method returns.
-/

set_option autoImplicit false

namespace Mafia

/-- `models.Role` (`models.py`). -/
inductive Role where
  | Mafia
  | Townsperson
  | Doctor
  | Detective
deriving Repr, DecidableEq

/-- `models.Phase` (`models.py`). -/
inductive Phase where
  | Setup
  | Night
  | Day
  | GameOver
deriving Repr, DecidableEq

/-- The dict appended to `player.actions_taken` by
`MafiaGame.submit_player_action` (`game_logic.py` lines 267-272); its `phase`
key holds `current_phase.value`, modelled by the phase itself. -/
structure Action where
  type : String
  target : Option String
  round : Nat
  phase : Phase
deriving Repr, DecidableEq

/-- `models.Player`.  `voting_history` entries are the dicts built at
`game_logic.py` lines 202-205, i.e. pairs (round, voted_for).
`suspicion_level : float` is omitted: none of the embedded operations of
`MafiaGame` ever reads or writes it. -/
structure Player where
  name : String
  role : Option Role := none
  is_alive : Bool := true
  death_round : Option Nat := none
  voting_history : List (Nat × String) := []
  actions_taken : List Action := []
deriving Repr, DecidableEq

/-- The `results` dict of `MafiaGame.process_night_actions`
(`game_logic.py` lines 113-117): an `investigation_result` entry is the pair
(target, is_mafia). -/
structure NightResults where
  eliminated : Option String := none
  saved : Bool := false
  investigation_result : Option (String × Bool) := none
deriving Repr, DecidableEq

/-- The `self.night_actions` record written at `game_logic.py` lines 145-151. -/
structure NightRecord where
  round : Nat
  mafia_target : Option String
  doctor_save : Option String
  detective_investigation : Option String
  results : NightResults
deriving Repr, DecidableEq

/-- The dict returned by `MafiaGame.process_day_voting`
(`game_logic.py` lines 168-172 and 191-196).  The early no-votes return has no
`eliminated_role` key; it is modelled as `none` there. -/
structure VoteResult where
  eliminated : Option String
  eliminated_role : Option Role
  votes : List (String × Nat)
  reason : String
deriving Repr, DecidableEq

/-- The mutable state of `MafiaGame` (`game_logic.py` lines 18-27) that the
game-logic methods read or write.  `config`, `game_history`,
`phase_start_time` and `phase_duration` are carried by the Python object but
never affect the embedded operations' results, and wall-clock time is outside
the model, so they are not represented.  `self.night_actions` starts as the
empty dict, modelled as `none`. -/
structure MafiaGame where
  players : List Player
  current_phase : Phase := Phase.Setup
  current_round : Nat := 0
  current_votes : List (String × String) := []
  night_actions : Option NightRecord := none
deriving Repr, DecidableEq

/-- `MafiaGame.get_player_by_name` (`game_logic.py` lines 102-107): first
player in registration order whose name matches, else `None`. -/
def get_player_by_name (g : MafiaGame) (name : String) : Option Player :=
  g.players.find? fun p => p.name == name

/-- In-place mutation of the object `get_player_by_name` returns: apply `f`
to the first player called `name`, keep everyone else. -/
def updateFirst (ps : List Player) (name : String) (f : Player → Player) :
    List Player :=
  match ps with
  | [] => []
  | p :: rest =>
    if p.name == name then f p :: rest else p :: updateFirst rest name f

/-- `MafiaGame.get_living_players` (`game_logic.py` lines 76-78). -/
def get_living_players (g : MafiaGame) : List Player :=
  g.players.filter fun p => p.is_alive

/-- `MafiaGame.get_mafia_members` (`game_logic.py` lines 84-86): living
players whose role is Mafia. -/
def get_mafia_members (g : MafiaGame) : List Player :=
  (get_living_players g).filter fun p => p.role == some Role.Mafia

/-- `MafiaGame.get_townspeople` (`game_logic.py` lines 88-90): living players
whose role is not Mafia (an unassigned role also counts as non-Mafia, as
`None == Role.MAFIA` is false in Python). -/
def get_townspeople (g : MafiaGame) : List Player :=
  (get_living_players g).filter fun p => p.role != some Role.Mafia

/-- `MafiaGame.is_game_over` (`game_logic.py` lines 216-229). -/
def is_game_over (g : MafiaGame) : Bool :=
  let living_mafia := (get_mafia_members g).length
  let living_townspeople := (get_townspeople g).length
  if living_mafia ≥ living_townspeople then true
  else if living_mafia = 0 then true
  else false

/-- `MafiaGame.get_winner` (`game_logic.py` lines 231-244). -/
def get_winner (g : MafiaGame) : Option String :=
  if ¬ is_game_over g then none
  else
    let living_mafia := (get_mafia_members g).length
    let living_townspeople := (get_townspeople g).length
    if living_mafia ≥ living_townspeople then some "Mafia"
    else if living_mafia = 0 then some "Townspeople"
    else none

/-- The role pool built by `MafiaGame.assign_roles` (`game_logic.py` lines
49-62) before shuffling.  Python's `total - num_mafia - num_doctor -
num_detective` can be negative only for `total = 0` (giving `-1`, hence an
empty townsperson block, which truncated `Nat` subtraction reproduces). -/
def role_pool (total : Nat) : List Role :=
  let num_mafia := max 1 (total / 4)
  let num_doctor := if total ≥ 5 then 1 else 0
  let num_detective := if total ≥ 6 then 1 else 0
  let num_townspeople := total - num_mafia - num_doctor - num_detective
  List.replicate num_mafia Role.Mafia ++
  List.replicate num_doctor Role.Doctor ++
  List.replicate num_detective Role.Detective ++
  List.replicate num_townspeople Role.Townsperson

/-- The `zip(self.players, roles)` assignment loop of `MafiaGame.assign_roles`
(`game_logic.py` lines 66-67): stops at the shorter list, players beyond it
keep their previous role. -/
def zipAssign : List Player → List Role → List Player
  | ps, [] => ps
  | [], _ => []
  | p :: ps, r :: rs => { p with role := some r } :: zipAssign ps rs

/-- `MafiaGame.assign_roles` (`game_logic.py` lines 47-69) with
`random.shuffle` injected as `shuffle` (the real one permutes the pool). -/
def assign_roles (g : MafiaGame) (shuffle : List Role → List Role) :
    MafiaGame :=
  { g with players := zipAssign g.players (shuffle (role_pool g.players.length)) }

/-- Append the action dict built at `game_logic.py` lines 267-274 to one
player's `actions_taken`. -/
def append_action (action_type : String) (target : Option String)
    (round : Nat) (phase : Phase) (p : Player) : Player :=
  { p with actions_taken := p.actions_taken ++
      [{ type := action_type, target := target, round := round,
         phase := phase }] }

/-- `MafiaGame.submit_player_action` (`game_logic.py` lines 261-275): returns
the new state and the Python return value. -/
def submit_player_action (g : MafiaGame) (player_name : String)
    (action_type : String) (target : Option String) : MafiaGame × Bool :=
  match get_player_by_name g player_name with
  | none => (g, false)
  | some player =>
    if ¬ player.is_alive then (g, false)
    else
      ({ g with players := updateFirst g.players player_name
                  (append_action action_type target g.current_round
                    g.current_phase) },
       true)

/-- The mafia-kill block of `MafiaGame.process_night_actions`
(`game_logic.py` lines 119-131): Python's `if mafia_target:` is falsy for
`None` and for the empty string, hence the `t = ""` guard.  Returns the
updated player list and the partial `results` dict. -/
def mafia_kill (g : MafiaGame) (mafia_target : Option String)
    (doctor_save : Option String) : List Player × NightResults :=
  match mafia_target with
  | none => (g.players, {})
  | some t =>
    if t = "" then (g.players, {})
    else
      match get_player_by_name g t with
      | none => (g.players, {})
      | some target_player =>
        if target_player.is_alive then
          if doctor_save = some t then
            (g.players, { saved := true })
          else
            (updateFirst g.players t
               (fun p => { p with is_alive := false,
                                  death_round := some g.current_round }),
             { eliminated := some t })
        else (g.players, {})

/-- The detective block of `MafiaGame.process_night_actions`
(`game_logic.py` lines 133-142): looks the target up in the (possibly already
mutated) player list and records the investigation result. -/
def apply_investigation (players1 : List Player)
    (detective_investigation : Option String) (r : NightResults) :
    NightResults :=
  match detective_investigation with
  | none => r
  | some d =>
    if d = "" then r
    else
      match players1.find? (fun p => p.name == d) with
      | none => r
      | some investigated =>
        { r with
            investigation_result := some (d, investigated.role == some Role.Mafia) }

/-- `MafiaGame.process_night_actions` (`game_logic.py` lines 109-157) with the
three optional targets as arguments; returns the new state and the `results`
dict. -/
def process_night_actions (g : MafiaGame) (mafia_target : Option String)
    (doctor_save : Option String) (detective_investigation : Option String) :
    MafiaGame × NightResults :=
  let step1 := mafia_kill g mafia_target doctor_save
  let players1 := step1.1
  let results2 := apply_investigation players1 detective_investigation step1.2
  ({ g with players := players1,
            night_actions := some
              { round := g.current_round,
                mafia_target := mafia_target,
                doctor_save := doctor_save,
                detective_investigation := detective_investigation,
                results := results2 },
            current_phase := Phase.Day },
   results2)

/-- Distinct values in first-occurrence order: the keys of
`Counter(votes.values())`, which iterates in insertion order. -/
def dedupFirst : List String → List String
  | [] => []
  | x :: xs => x :: (dedupFirst xs).filter (fun y => y ≠ x)

/-- The `dict(vote_counts)` of `Counter(votes.values())`: each distinct target
paired with its number of occurrences, in first-occurrence order. -/
def voteCounts (vals : List String) : List (String × Nat) :=
  (dedupFirst vals).map fun t => (t, vals.count t)

/-- `max(vote_counts.values())` (`game_logic.py` line 175), as a fold with
neutral element 0 (every present count is ≥ 1, so the neutral is inert on the
nonempty inputs the code reaches it with). -/
def maxVotes (vals : List String) : Nat :=
  ((voteCounts vals).map Prod.snd).foldl max 0

/-- `candidates` (`game_logic.py` line 176): targets whose count equals the
maximum, in `Counter` (first-occurrence) order. -/
def candidates (vals : List String) : List String :=
  (dedupFirst vals).filter fun t => vals.count t = maxVotes vals

/-- The eliminated name chosen at `game_logic.py` lines 174-183:
`random.choice` over a tie is injected as `pick`; a single candidate is taken
directly (`headD` never falls back to its default on the nonempty vote maps
this is called with). -/
def day_elim_name (votes : List (String × String))
    (pick : List String → String) : String :=
  let cs := candidates (votes.map Prod.snd)
  if cs.length > 1 then pick cs else cs.headD ""

/-- `MafiaGame.process_day_voting` (`game_logic.py` lines 159-214) with
`random.choice` injected as `pick`; returns the new state and the result
dict.  `self.current_votes = votes` happens first in both branches; the
no-votes early return leaves phase and round untouched. -/
def process_day_voting (g : MafiaGame) (votes : List (String × String))
    (pick : List String → String) : MafiaGame × VoteResult :=
  match votes with
  | [] =>
    ({ g with current_votes := [] },
     { eliminated := none, eliminated_role := none, votes := [],
       reason := "No votes cast" })
  | _ :: _ =>
    let vals := votes.map Prod.snd
    let eliminated_player_name := day_elim_name votes pick
    let found := get_player_by_name g eliminated_player_name
    let players1 :=
      match found with
      | some _ =>
        updateFirst g.players eliminated_player_name
          fun p => { p with is_alive := false,
                            death_round := some g.current_round }
      | none => g.players
    let result : VoteResult :=
      { eliminated := some eliminated_player_name,
        eliminated_role :=
          match found with
          | some p => p.role
          | none => none,
        votes := voteCounts vals,
        reason := "Majority vote" }
    let players2 := votes.foldl
      (fun ps v => updateFirst ps v.1
        fun p => { p with voting_history := p.voting_history ++ [(g.current_round, v.2)] })
      players1
    ({ g with players := players2,
              current_votes := votes,
              current_round := g.current_round + 1,
              current_phase := Phase.Night },
     result)

/-! ### Concrete fixtures used by counterexamples and witnesses -/

/-- A living player with no role assigned yet. -/
def alice : Player := { name := "Alice" }

/-- A second living player. -/
def bob : Player := { name := "Bob" }

/-- A player already eliminated in round 1. -/
def dana : Player := { name := "Dana", is_alive := false, death_round := some 1 }

/-- A living Mafia member. -/
def mallory : Player := { name := "Mallory", role := some Role.Mafia }

/-- A living Townsperson. -/
def tom : Player := { name := "Tom", role := some Role.Townsperson }

/-- Deterministic stand-in for `random.choice`: takes the first candidate. -/
def pickFst : List String → String := fun l => l.headD ""

/-- A Day-phase state in round 3 with two living players. -/
def gDay : MafiaGame :=
  { players := [alice, bob], current_phase := Phase.Day, current_round := 3 }

/-- A Day-phase state in round 2 with a living player and a dead one. -/
def gDayDead : MafiaGame :=
  { players := [alice, dana], current_phase := Phase.Day, current_round := 2 }

/-- A registry in which the only player is a living Mafia member. -/
def gLoneMafia : MafiaGame :=
  { players := [mallory], current_phase := Phase.Night, current_round := 2 }

/-- A state whose phase is `GameOver`, with living players still present. -/
def gOver : MafiaGame :=
  { players := [alice, bob], current_phase := Phase.GameOver, current_round := 5 }

/-- A Night-phase state with a living Mafia member and a living Townsperson. -/
def gNight : MafiaGame :=
  { players := [mallory, tom], current_phase := Phase.Night, current_round := 4 }

/-- A four-player setup state with no roles assigned yet. -/
def gFour : MafiaGame :=
  { players := [alice, bob, { name := "Carol" }, { name := "Dave" }] }

/-! ### Claim C2 — the winner mapping -/

/-- The winner mapping exactly as claim C2 words it (from the spec, for
comparison with `get_winner`): Mafia needs `livingOthers > 0` unless both
counts are zero. -/
def winner_per_claim_C2 (living_mafia living_others : Nat) : Option String :=
  if living_mafia ≥ living_others ∧ living_others > 0 then some "Mafia"
  else if living_mafia = 0 ∧ living_others > 0 then some "Townspeople"
  else if living_mafia = 0 ∧ living_others = 0 then some "Mafia"
  else none

/-- Claim C2, counterexample: with one living Mafia member and no living
others, `get_winner` answers "Mafia" (the `0 < livingMafia ≥ livingOthers = 0`
parity check fires), while the claim's mapping — which demands
`livingOthers > 0` for a Mafia win unless both counts are zero — answers no
winner. -/
theorem C2_cex :
    (get_mafia_members gLoneMafia).length = 1 ∧
    (get_townspeople gLoneMafia).length = 0 ∧
    get_winner gLoneMafia = some "Mafia" ∧
    winner_per_claim_C2 1 0 = none := by decide

/-- Claim C2 (amended): `get_winner` computes exactly: "Mafia" whenever
`livingMafia ≥ livingOthers` (regardless of whether any others survive),
else "Townspeople" whenever `livingMafia = 0`, else no winner. -/
theorem C2_winner_mapping (g : MafiaGame) :
    get_winner g =
      if (get_mafia_members g).length ≥ (get_townspeople g).length then
        some "Mafia"
      else if (get_mafia_members g).length = 0 then some "Townspeople"
      else none := by
  by_cases h1 : (get_mafia_members g).length ≥ (get_townspeople g).length
  · simp [get_winner, is_game_over, h1]
  · by_cases h2 : (get_mafia_members g).length = 0
    · simp [get_winner, is_game_over, h1, h2]
    · simp [get_winner, is_game_over, h1, h2]

/-! ### Claim C4 — round-counter discipline -/

/-- Claim C4: night resolution never changes the round counter, and any day
vote resolution that transitions the phase to Night (the phase was not Night
before and is Night after) increments the round counter by exactly one. -/
theorem C4_round_increment (g₁ : MafiaGame) (mt ds di : Option String)
    (g₂ : MafiaGame) (votes : List (String × String))
    (pick : List String → String)
    (h : (process_day_voting g₂ votes pick).1.current_phase = Phase.Night ∧
         g₂.current_phase ≠ Phase.Night) :
    (process_night_actions g₁ mt ds di).1.current_round = g₁.current_round ∧
    (process_day_voting g₂ votes pick).1.current_round = g₂.current_round + 1 := by
  refine ⟨rfl, ?_⟩
  cases votes with
  | nil => exact absurd h.1 h.2
  | cons v vs => rfl

/-- Witness for C4 at a concrete Day state and a one-vote map. -/
theorem C4_round_increment_witness :
    (process_night_actions gDay (some "Alice") none none).1.current_round =
      gDay.current_round ∧
    (process_day_voting gDay [("Alice", "Bob")] pickFst).1.current_round =
      gDay.current_round + 1 :=
  C4_round_increment gDay (some "Alice") none none gDay [("Alice", "Bob")]
    pickFst ⟨by decide, by decide⟩

/-! ### Claim C5 — current votes after day resolution -/

/-- Claim C5, counterexample: after resolving a nonempty vote map the
current-votes mapping still holds that map — it is not cleared. -/
theorem C5_cex :
    (process_day_voting gDay [("Alice", "Bob")] pickFst).1.current_votes ≠ [] := by
  decide

/-- Claim C5 (amended): after every day-vote resolution the current-votes
mapping equals the vote map that was passed in (`self.current_votes = votes`
and no clearing), so its size equals the number of submitted vote entries;
the tally itself imposes no bound in terms of the living players. -/
theorem C5_votes_retained (g : MafiaGame) (votes : List (String × String))
    (pick : List String → String) :
    (process_day_voting g votes pick).1.current_votes = votes ∧
    (process_day_voting g votes pick).1.current_votes.length = votes.length := by
  cases votes with
  | nil => exact ⟨rfl, rfl⟩
  | cons v vs => exact ⟨rfl, rfl⟩

/-! ### Claim C9 — the empty vote map -/

/-- Claim C9, counterexample: on an empty vote map the resolver returns
early — the phase stays Day and the round counter stays put, contradicting
the claim that the phase and round still advance. -/
theorem C9_cex :
    gDay.current_phase = Phase.Day ∧ gDay.current_round = 3 ∧
    (process_day_voting gDay [] pickFst).1.current_phase = Phase.Day ∧
    (process_day_voting gDay [] pickFst).1.current_round = 3 := by decide

/-- Claim C9 (amended): with no votes, day tallying returns eliminated = none
with reason "No votes cast" and mutates no player, but it does not advance
the phase or the round — both stay exactly as they were. -/
theorem C9_no_votes (g : MafiaGame) (pick : List String → String) :
    (process_day_voting g [] pick).2.eliminated = none ∧
    (process_day_voting g [] pick).2.reason = "No votes cast" ∧
    (process_day_voting g [] pick).1.players = g.players ∧
    (process_day_voting g [] pick).1.current_phase = g.current_phase ∧
    (process_day_voting g [] pick).1.current_round = g.current_round :=
  ⟨rfl, rfl, rfl, rfl, rfl⟩

/-! ### Claim C1 — which votes contribute to the tally -/

/-- Looking a key up in a list of `(s, f s)` pairs built from `l` yields
`f t` exactly when `t` occurs in `l`. -/
theorem lookup_map_self (t : String) (l : List String) (f : String → Nat) :
    (l.map fun s => (s, f s)).lookup t =
      if t ∈ l then some (f t) else none := by
  induction l with
  | nil => simp
  | cons x xs ih =>
    by_cases hx : t = x
    · subst hx
      simp [List.lookup]
    · have hbeq : (t == x) = false := by
        simpa using hx
      simp [List.lookup, hbeq, hx, ih]

/-- `dedupFirst` keeps exactly the elements of its input. -/
theorem mem_dedupFirst (t : String) (l : List String) :
    t ∈ dedupFirst l ↔ t ∈ l := by
  induction l with
  | nil => simp [dedupFirst]
  | cons x xs ih =>
    simp only [dedupFirst, List.mem_cons, List.mem_filter, ih]
    by_cases hx : t = x <;> simp [hx]

/-- Claim C1, counterexample: the only vote in the map is cast by Dana, who
is dead, yet that vote alone fixes the counts and eliminates Alice; and the
abstention sentinel "no_vote" is itself counted as a target.  Day tallying
filters neither dead/nonexistent voters nor abstentions. -/
theorem C1_cex :
    (get_player_by_name gDayDead "Dana").map Player.is_alive = some false ∧
    (process_day_voting gDayDead [("Dana", "Alice")] pickFst).2.eliminated =
      some "Alice" ∧
    (get_player_by_name
        (process_day_voting gDayDead [("Dana", "Alice")] pickFst).1
        "Alice").map Player.is_alive = some false ∧
    (process_day_voting gDayDead [("Alice", "no_vote")] pickFst).2.votes =
      [("no_vote", 1)] := by decide

/-- Claim C1 (amended): the per-target counts returned by day tallying count
every entry of the submitted vote map — each target's count is the number of
occurrences of that target among all submitted values, with no filtering by
the voter's existence or liveness and no exclusion of the "no_vote"
sentinel. -/
theorem C1_all_votes_counted (g : MafiaGame)
    (votes : List (String × String)) (pick : List String → String)
    (t : String) :
    ((process_day_voting g votes pick).2.votes).lookup t =
      if t ∈ votes.map Prod.snd then some ((votes.map Prod.snd).count t)
      else none := by
  cases votes with
  | nil =>
    show (List.lookup t ([] : List (String × Nat))) = _
    simp
  | cons v vs =>
    show (voteCounts ((v :: vs).map Prod.snd)).lookup t = _
    unfold voteCounts
    rw [lookup_map_self]
    by_cases h : t ∈ (v :: vs).map Prod.snd
    · rw [if_pos ((mem_dedupFirst _ _).mpr h), if_pos h]
    · rw [if_neg (fun hc => h ((mem_dedupFirst _ _).mp hc)), if_neg h]

/-! ### Claim C3 — kill versus save at night -/

/-- If no player is called `n`, `updateFirst` changes nothing. -/
theorem updateFirst_of_find?_none (ps : List Player) (n : String)
    (f : Player → Player)
    (h : ps.find? (fun p => p.name == n) = none) :
    updateFirst ps n f = ps := by
  induction ps with
  | nil => rfl
  | cons p rest ih =>
    cases hp : (p.name == n) with
    | true => simp [List.find?_cons, hp] at h
    | false =>
      rw [List.find?_cons, hp] at h
      simp [updateFirst, hp, ih h]

/-- Finding the updated name after `updateFirst` with a name-preserving `f`
returns the image under `f` of what was found before. -/
theorem find?_updateFirst (ps : List Player) (n : String)
    (f : Player → Player) (hf : ∀ p, (f p).name = p.name) :
    (updateFirst ps n f).find? (fun p => p.name == n) =
      (ps.find? (fun p => p.name == n)).map f := by
  induction ps with
  | nil => rfl
  | cons p rest ih =>
    cases hp : (p.name == n) with
    | true =>
      have hfp : ((f p).name == n) = true := by rw [hf p]; exact hp
      simp [updateFirst, hp, List.find?_cons, hfp]
    | false =>
      simp [updateFirst, hp, List.find?_cons, ih]

/-- The detective step never touches the `saved` flag. -/
theorem apply_investigation_saved (ps : List Player) (di : Option String)
    (r : NightResults) : (apply_investigation ps di r).saved = r.saved := by
  cases di with
  | none => rfl
  | some d =>
    by_cases hd : d = ""
    · simp [apply_investigation, hd]
    · simp only [apply_investigation, if_neg hd]
      cases ps.find? (fun p => p.name == d) <;> rfl

/-- The detective step never touches the `eliminated` field. -/
theorem apply_investigation_eliminated (ps : List Player) (di : Option String)
    (r : NightResults) :
    (apply_investigation ps di r).eliminated = r.eliminated := by
  cases di with
  | none => rfl
  | some d =>
    by_cases hd : d = ""
    · simp [apply_investigation, hd]
    · simp only [apply_investigation, if_neg hd]
      cases ps.find? (fun p => p.name == d) <;> rfl

/-- Claim C3: when the mafia target names a living player, a matching doctor
save leaves the target untouched (still alive, death round still unset) with
`saved = true` and no elimination; otherwise the target's alive flag becomes
false, its death round becomes the current round, and the outcome records the
elimination. -/
theorem C3_kill_or_save (g : MafiaGame) (t : String) (ds di : Option String)
    (p : Player)
    (hne : t ≠ "")
    (hfind : get_player_by_name g t = some p)
    (halive : p.is_alive = true)
    (hdr : p.death_round = none) :
    (ds = some t →
       get_player_by_name (process_night_actions g (some t) ds di).1 t =
         some p ∧
       (process_night_actions g (some t) ds di).2.saved = true ∧
       (process_night_actions g (some t) ds di).2.eliminated = none) ∧
    (ds ≠ some t →
       (get_player_by_name (process_night_actions g (some t) ds di).1 t).map
           (fun q => (q.is_alive, q.death_round)) =
         some (false, some g.current_round) ∧
       (process_night_actions g (some t) ds di).2.eliminated = some t) := by
  constructor
  · intro hds
    have hkill : mafia_kill g (some t) ds = (g.players, { saved := true }) := by
      simp [mafia_kill, hne, hfind, halive, hds]
    refine ⟨?_, ?_, ?_⟩
    · show ((process_night_actions g (some t) ds di).1.players).find?
          (fun q => q.name == t) = some p
      simp only [process_night_actions, hkill]
      exact hfind
    · show (apply_investigation (mafia_kill g (some t) ds).1 di
          (mafia_kill g (some t) ds).2).saved = true
      rw [apply_investigation_saved, hkill]
    · show (apply_investigation (mafia_kill g (some t) ds).1 di
          (mafia_kill g (some t) ds).2).eliminated = none
      rw [apply_investigation_eliminated, hkill]
  · intro hds
    have hkill : mafia_kill g (some t) ds =
        (updateFirst g.players t
           (fun q => { q with is_alive := false,
                              death_round := some g.current_round }),
         { eliminated := some t }) := by
      simp [mafia_kill, hne, hfind, halive, hds]
    refine ⟨?_, ?_⟩
    · show (((process_night_actions g (some t) ds di).1.players).find?
          (fun q => q.name == t)).map (fun q => (q.is_alive, q.death_round)) =
        some (false, some g.current_round)
      simp only [process_night_actions, hkill]
      rw [find?_updateFirst g.players t
            (fun q => { q with is_alive := false,
                               death_round := some g.current_round })
            (fun _ => rfl)]
      rw [show g.players.find? (fun q => q.name == t) = some p from hfind]
      rfl
    · show (apply_investigation (mafia_kill g (some t) ds).1 di
          (mafia_kill g (some t) ds).2).eliminated = some t
      rw [apply_investigation_eliminated, hkill]

/-- Witness for C3 at a concrete Night state, saved branch: Tom is targeted
and saved. -/
theorem C3_kill_or_save_witness :
    get_player_by_name
        (process_night_actions gNight (some "Tom") (some "Tom") none).1
        "Tom" = some tom ∧
    (process_night_actions gNight (some "Tom") (some "Tom") none).2.saved =
      true ∧
    (process_night_actions gNight (some "Tom") (some "Tom") none).2.eliminated =
      none :=
  (C3_kill_or_save gNight "Tom" (some "Tom") none tom (by decide) (by decide)
    (by decide) (by decide)).1 rfl

/-! ### Claim C6 — is GameOver terminal? -/

/-- Claim C6, counterexample: in a `GameOver` state a player-action
submission from a living player succeeds (returns `True`) and mutates the
state, instead of failing with a PhaseViolation and leaving the state
unchanged.  No operation of `MafiaGame` checks the phase at all. -/
theorem C6_cex :
    gOver.current_phase = Phase.GameOver ∧
    (submit_player_action gOver "Alice" "vote" (some "Bob")).2 = true ∧
    (submit_player_action gOver "Alice" "vote" (some "Bob")).1 ≠ gOver := by
  decide

/-- Claim C6 (amended): the engine does not enforce GameOver as terminal —
in a `GameOver` state an action submission from a living, existing player
still returns `True`, and night and day resolution mutate the registry
exactly as they would in the `Night` phase (no operation consults the current
phase before mutating). -/
theorem C6_no_terminal_guard (g : MafiaGame) (name ty : String)
    (tgt : Option String) (p : Player) (mt ds di : Option String)
    (votes : List (String × String)) (pick : List String → String)
    (hphase : g.current_phase = Phase.GameOver)
    (hfind : get_player_by_name g name = some p)
    (halive : p.is_alive = true) :
    (submit_player_action g name ty tgt).2 = true ∧
    (process_night_actions g mt ds di).1.players =
      (process_night_actions { g with current_phase := Phase.Night }
        mt ds di).1.players ∧
    (process_day_voting g votes pick).1.players =
      (process_day_voting { g with current_phase := Phase.Night }
        votes pick).1.players := by
  refine ⟨?_, ?_, ?_⟩
  · simp [submit_player_action, hfind, halive]
  · rfl
  · cases votes <;> rfl

/-- Witness for C6 at a concrete `GameOver` state with Alice alive. -/
theorem C6_no_terminal_guard_witness :
    (submit_player_action gOver "Alice" "vote" (some "Bob")).2 = true ∧
    (process_night_actions gOver (some "Bob") none none).1.players =
      (process_night_actions { gOver with current_phase := Phase.Night }
        (some "Bob") none none).1.players ∧
    (process_day_voting gOver [("Alice", "Bob")] pickFst).1.players =
      (process_day_voting { gOver with current_phase := Phase.Night }
        [("Alice", "Bob")] pickFst).1.players :=
  C6_no_terminal_guard gOver "Alice" "vote" (some "Bob") alice (some "Bob")
    none none [("Alice", "Bob")] pickFst (by decide) (by decide) (by decide)

/-! ### Claim C7 — repeated role assignment -/

/-- `zipAssign` never changes the number of players. -/
theorem zipAssign_length (ps : List Player) (rs : List Role) :
    (zipAssign ps rs).length = ps.length := by
  induction ps generalizing rs with
  | nil => cases rs <;> rfl
  | cons p ps ih =>
    cases rs with
    | nil => rfl
    | cons r rs => simp [zipAssign, ih]

/-- With a full-length role list, `zipAssign` overwrites every player's role
with the corresponding list entry. -/
theorem zipAssign_map_role (ps : List Player) (rs : List Role)
    (h : rs.length = ps.length) :
    (zipAssign ps rs).map Player.role = rs.map some := by
  induction ps generalizing rs with
  | nil =>
    cases rs with
    | nil => rfl
    | cons r rs => simp at h
  | cons p ps ih =>
    cases rs with
    | nil => simp at h
    | cons r rs =>
      simp only [List.length_cons, Nat.succ_inj] at h
      simp [zipAssign, ih rs h]

/-- Reassigning over an earlier assignment of the same length is the same as
assigning directly: the second pass overwrites every role the first wrote. -/
theorem zipAssign_zipAssign (ps : List Player) (l1 l2 : List Role)
    (h : l1.length = l2.length) :
    zipAssign (zipAssign ps l1) l2 = zipAssign ps l2 := by
  induction ps generalizing l1 l2 with
  | nil => cases l1 <;> cases l2 <;> rfl
  | cons p ps ih =>
    cases l1 with
    | nil =>
      cases l2 with
      | nil => rfl
      | cons b l2 => simp at h
    | cons a l1 =>
      cases l2 with
      | nil => simp at h
      | cons b l2 =>
        simp only [List.length_cons, Nat.succ_inj] at h
        simp [zipAssign, ih l1 l2 h]

/-- Claim C7, counterexample: calling `assign_roles` a second time (here with
the reversing permutation as the injected shuffle) succeeds and reshuffles —
the roles after the second call differ from the roles the first call
assigned.  There is no guard failing the second call. -/
theorem C7_cex :
    (assign_roles (assign_roles gFour id) List.reverse).players.map
        Player.role ≠
      (assign_roles gFour id).players.map Player.role := by decide

/-- Claim C7 (amended): each call to `assign_roles` with a length-preserving
shuffle mutates every player's role (each player receives the pool entry at
its position), and a second call does not fail — it reassigns, producing
exactly the state a single call with the second shuffle would produce. -/
theorem C7_reassigns (g : MafiaGame) (sh1 sh2 : List Role → List Role)
    (h1 : (sh1 (role_pool g.players.length)).length = g.players.length)
    (h2 : (sh2 (role_pool g.players.length)).length = g.players.length) :
    (assign_roles g sh1).players.map Player.role =
      (sh1 (role_pool g.players.length)).map some ∧
    assign_roles (assign_roles g sh1) sh2 = assign_roles g sh2 := by
  constructor
  · exact zipAssign_map_role _ _ h1
  · unfold assign_roles
    congr 1
    rw [zipAssign_length g.players (sh1 (role_pool g.players.length))]
    exact zipAssign_zipAssign g.players _ _ (h1.trans h2.symm)

/-- Witness for C7 on the four-player setup state with the identity
shuffle twice. -/
theorem C7_reassigns_witness :
    (assign_roles gFour id).players.map Player.role =
      (id (role_pool gFour.players.length)).map some ∧
    assign_roles (assign_roles gFour id) id = assign_roles gFour id :=
  C7_reassigns gFour id id (by decide) (by decide)

/-! ### Claim C8 — plurality winner that does not exist -/

/-- `updateFirst` is invisible to any projection `f` preserves. -/
theorem map_proj_updateFirst {α : Type} (proj : Player → α)
    (ps : List Player) (n : String) (f : Player → Player)
    (hf : ∀ p, proj (f p) = proj p) :
    (updateFirst ps n f).map proj = ps.map proj := by
  induction ps with
  | nil => rfl
  | cons p rest ih =>
    by_cases hp : (p.name == n) = true
    · simp [updateFirst, hp, hf]
    · simp only [Bool.not_eq_true] at hp
      simp [updateFirst, hp, ih]

/-- Recording vote history (a fold of `updateFirst`s touching only
`voting_history`) changes no player's alive flag or death round. -/
theorem map_alive_foldl_history (votes : List (String × String))
    (ps : List Player) (r : Nat) :
    (votes.foldl
        (fun ps v => updateFirst ps v.1
          (fun p => { p with
            voting_history := p.voting_history ++ [(r, v.2)] }))
        ps).map (fun p => (p.is_alive, p.death_round)) =
      ps.map (fun p => (p.is_alive, p.death_round)) := by
  induction votes generalizing ps with
  | nil => rfl
  | cons v vs ih =>
    rw [List.foldl_cons, ih]
    exact map_proj_updateFirst
      (fun (p : Player) => (p.is_alive, p.death_round)) ps v.1
      (fun (p : Player) =>
        { p with voting_history := p.voting_history ++ [(r, v.2)] })
      (fun _ => rfl)

/-- Claim C8, counterexample: the sole vote names "Ghost", who is not in the
registry; no player state changes, but the returned outcome's `eliminated`
field does report "Ghost" as eliminated (with a `None` role), contradicting
the claim that the outcome does not report that name. -/
theorem C8_cex :
    get_player_by_name gDayDead "Ghost" = none ∧
    (process_day_voting gDayDead [("Alice", "Ghost")] pickFst).2.eliminated =
      some "Ghost" ∧
    (process_day_voting gDayDead [("Alice", "Ghost")] pickFst).1.players.map
        (fun p => (p.is_alive, p.death_round)) =
      gDayDead.players.map (fun p => (p.is_alive, p.death_round)) := by decide

/-- Claim C8 (amended): when the plurality winner of a nonempty vote map
names no existing player, no player's alive flag or death round changes, and
the outcome carries `eliminated_role = none` — but its `eliminated` field
does report the nonexistent name. -/
theorem C8_ghost_winner (g : MafiaGame) (votes : List (String × String))
    (pick : List String → String)
    (hne : votes ≠ [])
    (hghost : get_player_by_name g (day_elim_name votes pick) = none) :
    (process_day_voting g votes pick).1.players.map
        (fun p => (p.is_alive, p.death_round)) =
      g.players.map (fun p => (p.is_alive, p.death_round)) ∧
    (process_day_voting g votes pick).2.eliminated =
      some (day_elim_name votes pick) ∧
    (process_day_voting g votes pick).2.eliminated_role = none := by
  cases votes with
  | nil => exact absurd rfl hne
  | cons v vs =>
    have hplayers : (process_day_voting g (v :: vs) pick).1.players =
        (v :: vs).foldl
          (fun ps w => updateFirst ps w.1
            (fun p => { p with voting_history :=
                p.voting_history ++ [(g.current_round, w.2)] }))
          g.players := by
      simp only [process_day_voting]
      rw [hghost]
    have hrole : (process_day_voting g (v :: vs) pick).2.eliminated_role =
        none := by
      simp only [process_day_voting]
      rw [hghost]
    refine ⟨?_, rfl, hrole⟩
    rw [hplayers]
    exact map_alive_foldl_history (v :: vs) g.players g.current_round

/-- Witness for C8: one vote for the nonexistent "Ghost". -/
theorem C8_ghost_winner_witness :
    (process_day_voting gDay [("Alice", "Ghost")] pickFst).1.players.map
        (fun p => (p.is_alive, p.death_round)) =
      gDay.players.map (fun p => (p.is_alive, p.death_round)) ∧
    (process_day_voting gDay [("Alice", "Ghost")] pickFst).2.eliminated =
      some (day_elim_name [("Alice", "Ghost")] pickFst) ∧
    (process_day_voting gDay [("Alice", "Ghost")] pickFst).2.eliminated_role =
      none :=
  C8_ghost_winner gDay [("Alice", "Ghost")] pickFst (by decide) (by decide)

/-! ### Claim C10 — submitting a player action -/

/-- A successful `find?` splits the list into an untouched prefix, the found
player, and an untouched suffix, and determines what `updateFirst` does. -/
theorem find?_some_decomp (ps : List Player) (n : String) (p : Player)
    (h : ps.find? (fun q => q.name == n) = some p) :
    ∃ l1 l2, ps = l1 ++ p :: l2 ∧
      (∀ q ∈ l1, (q.name == n) = false) ∧ (p.name == n) = true ∧
      ∀ f, updateFirst ps n f = l1 ++ f p :: l2 := by
  induction ps with
  | nil => cases h
  | cons q rest ih =>
    cases hq : (q.name == n) with
    | true =>
      rw [List.find?_cons, hq] at h
      obtain rfl : q = p := by injection h
      exact ⟨[], rest, rfl, by simp, hq, fun f => by simp [updateFirst, hq]⟩
    | false =>
      rw [List.find?_cons, hq] at h
      obtain ⟨l1, l2, hsplit, hmiss, hname, hupd⟩ := ih h
      exact ⟨q :: l1, l2, by rw [hsplit]; rfl,
        by
          intro x hx
          rcases List.mem_cons.mp hx with rfl | hx
          · exact hq
          · exact hmiss x hx,
        hname,
        fun f => by simp [updateFirst, hq, hupd f]⟩

/-- Claim C10: submitting an action for a nonexistent or dead player returns
`False` and changes nothing; for a living player it returns `True`, leaves
phase, round and votes alone, and appends exactly one record of (type,
target, current round, current phase) to that player's `actions_taken`,
leaving every other player unchanged. -/
theorem C10_submit_action (g : MafiaGame) (name ty : String)
    (tgt : Option String) :
    (get_player_by_name g name = none →
       submit_player_action g name ty tgt = (g, false)) ∧
    (∀ p, get_player_by_name g name = some p → p.is_alive = false →
       submit_player_action g name ty tgt = (g, false)) ∧
    (∀ p, get_player_by_name g name = some p → p.is_alive = true →
       (submit_player_action g name ty tgt).2 = true ∧
       (submit_player_action g name ty tgt).1.current_phase =
         g.current_phase ∧
       (submit_player_action g name ty tgt).1.current_round =
         g.current_round ∧
       (submit_player_action g name ty tgt).1.current_votes =
         g.current_votes ∧
       ∃ l1 l2, g.players = l1 ++ p :: l2 ∧
         (∀ q ∈ l1, (q.name == name) = false) ∧
         (submit_player_action g name ty tgt).1.players =
           l1 ++ { p with actions_taken := p.actions_taken ++
               [{ type := ty, target := tgt, round := g.current_round,
                  phase := g.current_phase }] } :: l2) := by
  refine ⟨?_, ?_, ?_⟩
  · intro h
    simp [submit_player_action, h]
  · intro p hp hdead
    simp [submit_player_action, hp, hdead]
  · intro p hp halive
    obtain ⟨l1, l2, hsplit, hmiss, _, hupd⟩ := find?_some_decomp g.players name p hp
    refine ⟨?_, ?_, ?_, ?_, l1, l2, hsplit, hmiss, ?_⟩
    · simp [submit_player_action, hp, halive]
    · simp [submit_player_action, hp, halive]
    · simp [submit_player_action, hp, halive]
    · simp [submit_player_action, hp, halive]
    · have heq : (submit_player_action g name ty tgt).1.players =
          updateFirst g.players name
            (append_action ty tgt g.current_round g.current_phase) := by
        simp [submit_player_action, hp, halive]
      rw [heq, hupd (append_action ty tgt g.current_round g.current_phase)]
      rfl

/-- Witness for C10, living branch: Alice submits a vote action in `gDay`. -/
theorem C10_submit_action_witness :
    (submit_player_action gDay "Alice" "vote" (some "Bob")).2 = true ∧
    (submit_player_action gDay "Alice" "vote" (some "Bob")).1.current_phase =
      gDay.current_phase ∧
    (submit_player_action gDay "Alice" "vote" (some "Bob")).1.current_round =
      gDay.current_round ∧
    (submit_player_action gDay "Alice" "vote" (some "Bob")).1.current_votes =
      gDay.current_votes ∧
    ∃ l1 l2, gDay.players = l1 ++ alice :: l2 ∧
      (∀ q ∈ l1, (q.name == "Alice") = false) ∧
      (submit_player_action gDay "Alice" "vote" (some "Bob")).1.players =
        l1 ++ { alice with actions_taken := alice.actions_taken ++
            [{ type := "vote", target := some "Bob",
               round := gDay.current_round,
               phase := gDay.current_phase }] } :: l2 :=
  (C10_submit_action gDay "Alice" "vote" (some "Bob")).2.2 alice (by decide)
    (by decide)

end Mafia
